import Mathlib

/-! # examcheck: a verification development of `main.go`

The program polls a booking endpoint, formats the first result bundle and
pushes a notification.  This file embeds `readSsns`, `newRequest`, `doCheck`
and `loop` in Lean and proves properties of them.

Conventions of the embedding.

* A Go `string` is a sequence of bytes: `GoString := List (Fin 256)`.
* A Go slice is a `List`; the program only ranges over, appends to, indexes
  and takes the length of its slices, so the nil slice and the empty slice are
  both `[]`.
* A Go `int` that the program only stores and forwards is an `Int`.
* Everything the outside world decides (file content, random draw, the answers
  of the HTTP stack and of the JSON codec, the clock) is an explicit input, and
  everything the program does to the outside world is an `Event` of a trace.
-/

namespace Examcheck

/-! ## Strings -/

/-- A byte. -/
abbrev Byte := Fin 256

/-- A Go string: a sequence of bytes. -/
abbrev GoString := List Byte

/-- The bytes of an ASCII literal of the source. -/
def ascii (s : String) : GoString :=
  s.toList.map (fun c => Fin.ofNat c.toNat)

/-- The byte CR, carriage return. -/
def CR : Byte := 13

/-- The byte LF, line feed. -/
def LF : Byte := 10

/-- The string `"\r\n"`. -/
def crlf : GoString := [CR, LF]

/-- The string `"\n"`. -/
def lf : GoString := [LF]

/-- Worker of `stringsReplaceAll`: the first argument counts the bytes of a
match that are still to be skipped. -/
def replaceAllAux (old new : GoString) : Nat → GoString → GoString
  | _, [] => []
  | skip + 1, _ :: cs => replaceAllAux old new skip cs
  | 0, c :: cs =>
    if old.isPrefixOf (c :: cs) then new ++ replaceAllAux old new (old.length - 1) cs
    else c :: replaceAllAux old new 0 cs

/-- The library function `strings.ReplaceAll(s, old, new)` for a non-empty `old`:
the non-overlapping occurrences of `old`, found from the left, are replaced
by `new`. -/
def stringsReplaceAll (s old new : GoString) : GoString :=
  replaceAllAux old new 0 s

/-- Worker of `stringsSplit`: the first argument counts the bytes of a
separator that are still to be skipped.  The result is never empty; its head
is the segment being read. -/
def splitAux (sep : GoString) : Nat → GoString → List GoString
  | _, [] => [[]]
  | skip + 1, _ :: cs => splitAux sep skip cs
  | 0, c :: cs =>
    if sep.isPrefixOf (c :: cs) then [] :: splitAux sep (sep.length - 1) cs
    else
      match splitAux sep 0 cs with
      | seg :: rest => (c :: seg) :: rest
      | [] => [[c]]

/-- The library function `strings.Split(s, sep)` for a non-empty `sep`: the
substrings of `s` between the non-overlapping occurrences of `sep`, found
from the left (one more substring than occurrences). -/
def stringsSplit (s sep : GoString) : List GoString :=
  splitAux sep 0 s

/-- The library function `strings.Join(elems, sep)`. -/
def stringsJoin : List GoString → GoString → GoString
  | [], _ => []
  | [e], _ => e
  | e :: e2 :: es, sep => e ++ sep ++ stringsJoin (e2 :: es) sep

/-! ## Errors -/

/-- A Go `error` value, with the text its `Error()` method returns. -/
inductive GoError where
  /-- An error value made by the standard library (os, net/http, encoding/json, io). -/
  | lib (text : GoString)
  /-- The value of `errors.New(text)`. -/
  | errorsNew (text : GoString)
  /-- The value of `fmt.Errorf` whose formatted text is `text`. -/
  | fmtErrorf (text : GoString)
  deriving DecidableEq, Repr

/-- The method `Error()`. -/
def GoError.Error : GoError → GoString
  | .lib t => t
  | .errorsNew t => t
  | .fmtErrorf t => t

/-! ## Formatting -/

/-- An operand of a formatting call. -/
inductive FmtArg where
  /-- A string operand. -/
  | str (s : GoString)
  /-- An integer operand. -/
  | int (n : Int)
  /-- An error operand. -/
  | err (e : GoError)
  deriving DecidableEq, Repr

/-- The decimal digits of a natural number. -/
def decimal (n : Nat) : GoString :=
  (Nat.toDigits 10 n).map (fun c => Fin.ofNat c.toNat)

/-- The text the verbs `%s`, `%v` and `%d` print for an operand. -/
def FmtArg.text : FmtArg → GoString
  | .str s => s
  | .int n => if n < 0 then 45 :: decimal n.natAbs else decimal n.toNat
  | .err e => e.Error

/-- The byte of the percent sign. -/
def percent : Byte := 37

/-- Whether a byte is one of the verbs `s`, `v`, `d`. -/
def isVerb (d : Byte) : Bool :=
  d == 115 || d == 118 || d == 100

/-- The library function `fmt.Sprintf` for formats whose verbs are `%s`, `%v`
and `%d`, each with an operand of a matching kind: the format is copied and
each verb is replaced by the text of the next operand. -/
def fmtSprintf : GoString → List FmtArg → GoString
  | [], _ => []
  | c :: cs, args =>
    match cs, args with
    | d :: rest, a :: more =>
      if c = percent ∧ isVerb d = true then a.text ++ fmtSprintf rest more
      else c :: fmtSprintf (d :: rest) (a :: more)
    | cs, args => c :: fmtSprintf cs args

/-! ## `readSsns` -/

/-- The `for ... range` loop of `readSsns`: each non-empty segment is appended
to the result, starting from the nil slice. -/
def readSsnsLoop (segments : List GoString) : List GoString :=
  segments.foldl (fun res n => if n.length > 0 then res ++ [n] else res) []

/-- The part of `readSsns` after the file was read: `pns` is the content. -/
def parseSsns (pns : GoString) : List GoString :=
  readSsnsLoop (stringsSplit (stringsReplaceAll pns crlf lf) lf)

/-- The function `readSsns`; `file` is what `os.ReadFile("personnummer.txt")`
returns. -/
def readSsns (file : Except GoError GoString) : Except GoError (List GoString) :=
  match file with
  | .error err => .error (.fmtErrorf (fmtSprintf (ascii "Failed to read personnumer: %v") [.err err]))
  | .ok pns => .ok (parseSsns pns)

/-- The content with every CRLF replaced by LF, in the words of the
specification and without the library: reading from the left, a CR directly
followed by an LF becomes one LF, every other byte is kept. -/
def replaceCRLF : GoString → GoString
  | [] => []
  | c :: cs =>
    match cs with
    | d :: rest =>
      if c = CR ∧ d = LF then LF :: replaceCRLF rest else c :: replaceCRLF (d :: rest)
    | [] => [c]

/-- The non-empty lines of a content, in the words of the specification and
without the library functions of the code: replace every CRLF by LF, cut the
result at every LF (the LF bytes are dropped), keep the pieces of length > 0. -/
def nonEmptyLines (content : GoString) : List GoString :=
  ((replaceCRLF content).splitOn LF).filter (fun seg => decide (0 < seg.length))

/-! ## The request (`newRequest`) -/

/-- A value of the interface type `any`.  The program never makes one. -/
inductive AnyValue where
  /-- The nil interface value. -/
  | null
  /-- A string held in an interface. -/
  | text (s : GoString)
  /-- An integer held in an interface. -/
  | number (n : Int)
  deriving DecidableEq, Repr

/-- The struct `bookingSession`; each default is the zero value of the Go
field type (`*string` is an `Option`, nil is `none`). -/
structure bookingSession where
  SocialSecurityNumber : GoString := []
  LicenceId : Int := 0
  BookingModeId : Int := 0
  IgnoreDebt : Bool := false
  IgnoreBookingHindrance : Bool := false
  ExaminationTypeId : Int := 0
  ExcludeExaminationCategories : List AnyValue := []
  RescheduleTypeId : Int := 0
  PaymentIsActive : Bool := false
  PaymentReference : Option GoString := none
  PaymentUrl : Option GoString := none
  SearchedMonths : Int := 0
  deriving DecidableEq, Repr

/-- The struct `occasionBundleQuery`; each default is the zero value of the
Go field type. -/
structure occasionBundleQuery where
  StartDate : GoString := []
  SearchedMonths : Int := 0
  LocationId : Int := 0
  NearbyLocationIds : List Int := []
  LanguageId : Int := 0
  VehicleTypeId : Int := 0
  TachographTypeId : Int := 0
  OccasionChoiceId : Int := 0
  ExaminationTypeId : Int := 0
  deriving DecidableEq, Repr

/-- The struct `req`. -/
structure req where
  BookingSession : bookingSession := {}
  OccasionBundleQuery : occasionBundleQuery := {}
  deriving DecidableEq, Repr

/-- The function `newRequest`. -/
def newRequest (ssn : GoString) (location : Int) (nearby : List Int) : req :=
  { BookingSession :=
      { SocialSecurityNumber := ssn
        LicenceId := 4
        IgnoreBookingHindrance := true }
    OccasionBundleQuery :=
      { StartDate := ascii "1970-01-01T00:00:00.000Z"
        LocationId := location
        NearbyLocationIds := nearby
        LanguageId := 13
        VehicleTypeId := 1
        TachographTypeId := 1
        OccasionChoiceId := 1
        ExaminationTypeId := 10 } }

/-! ## The response and its formatting (`doCheck`, lines 112-119) -/

/-- The struct `occasion`. -/
structure occasion where
  Date : GoString := []
  Time : GoString := []
  LocationName : GoString := []
  deriving DecidableEq, Repr

/-- The struct `bundle`. -/
structure bundle where
  Occasions : List occasion := []
  deriving DecidableEq, Repr

/-- The struct `res`. -/
structure res where
  Bundles : List bundle := []
  deriving DecidableEq, Repr

/-- The line of one occasion: `fmt.Sprintf("%s %s at %s", occ.Date, occ.Time,
occ.LocationName)`. -/
def occasionLine (occ : occasion) : GoString :=
  fmtSprintf (ascii "%s %s at %s") [.str occ.Date, .str occ.Time, .str occ.LocationName]

/-- The end of `doCheck`, after the response was decoded: if there is a
bundle, the lines of the occasions of `Bundles[0]` are appended to `msg` one by
one and joined with `"\n"`; otherwise the message is `""`. -/
def formatResponse (queryResponse : res) : GoString :=
  if h : queryResponse.Bundles.length > 0 then
    let msg := (queryResponse.Bundles[0]).Occasions.foldl
      (fun msg occ => msg ++ [occasionLine occ]) []
    stringsJoin msg lf
  else []

/-! ## The outside world -/

/-- A request of the package `net/http`. -/
structure HTTPRequest where
  Method : GoString
  URL : GoString
  Header : List (GoString × GoString)
  Body : GoString
  deriving DecidableEq, Repr

/-- The method `Header.Set`: the value of the key is replaced. -/
def HTTPRequest.headerSet (r : HTTPRequest) (key value : GoString) : HTTPRequest :=
  { r with Header := r.Header.filter (fun kv => decide (kv.1 ≠ key)) ++ [(key, value)] }

/-- A response of the package `net/http`: its status line and what
`io.ReadAll` gives when the body is read. -/
structure HTTPResponse where
  Status : GoString
  Body : Except GoError GoString

/-- A point in time, in nanoseconds since the Unix epoch. -/
abbrev Time := Int

/-- A `time.Duration`, in nanoseconds. -/
abbrev Duration := Int

/-- The constant `time.Second`. -/
def Second : Duration := 1000000000

/-- The constant `time.Minute`. -/
def Minute : Duration := 60 * Second

/-- The constant `time.Hour`. -/
def Hour : Duration := 60 * Minute

/-- The largest `time.Duration`. -/
def maxDuration : Duration := 2 ^ 63 - 1

/-- The smallest `time.Duration`. -/
def minDuration : Duration := -(2 ^ 63)

/-- The zero value of `time.Time`: January 1, year 1, 00:00 UTC. -/
def zeroTime : Time := -62135596800 * Second

/-- The method `Time.Sub`: the difference, held at the largest or smallest
duration when it does not fit. -/
def timeSub (t u : Time) : Duration :=
  if t - u > maxDuration then maxDuration
  else if t - u < minDuration then minDuration
  else t - u

/-- What the outside world answers during one iteration of `loop`. -/
structure World where
  /-- The result of `os.ReadFile("personnummer.txt")`. -/
  readFile : Except GoError GoString
  /-- The state of the random source: `rand.Intn(n)` draws `random % n`. -/
  random : Nat
  /-- The result of `json.MarshalIndent(r, "", "  ")`. -/
  marshalIndent : req → Except GoError GoString
  /-- The error of `http.NewRequest`, if it fails. -/
  newRequestErr : Option GoError
  /-- The result of `http.DefaultClient.Do`. -/
  clientDo : HTTPRequest → Except GoError HTTPResponse
  /-- The result of `json.Unmarshal` into a zero `res`. -/
  unmarshal : GoString → Except GoError res
  /-- The result of `http.Post` to the relay; the program discards it. -/
  post : Except GoError HTTPResponse
  /-- The clock when `time.Since` reads it. -/
  clockSince : Time
  /-- The clock when `time.Now` reads it. -/
  clockNow : Time

/-- What the program does to the outside world. -/
inductive Event where
  /-- A call of `os.ReadFile`. -/
  | readFile (name : GoString)
  /-- A call of `rand.Intn(n)`; a negative `n` cannot arise from a length. -/
  | randIntn (n : Nat)
  /-- A request sent by `http.DefaultClient.Do`. -/
  | clientDo (r : HTTPRequest)
  /-- The deferred `resp.Body.Close()`. -/
  | bodyClose
  /-- Text printed to the standard output. -/
  | stdout (out : GoString)
  /-- A call of `http.Post(url, contentType, body)`. -/
  | httpPost (url contentType body : GoString)
  /-- A call of `time.Sleep(d)`. -/
  | sleep (d : Duration)
  deriving DecidableEq, Repr

/-- The library function `rand.Intn(n)`: a number in `[0, n)`, or a panic
(`none`) when `n <= 0`. -/
def randIntn (w : World) (n : Nat) : Option Nat :=
  if n = 0 then none else some (w.random % n)

/-- The library function `http.NewRequest(method, url, body)`. -/
def httpNewRequest (w : World) (method url body : GoString) : Except GoError HTTPRequest :=
  match w.newRequestErr with
  | some err => .error err
  | none => .ok { Method := method, URL := url, Header := [], Body := body }

/-! ## `doCheck` -/

/-- The function `doCheck`: the events it causes, in order, and what it
returns. -/
def doCheck (w : World) (ssn : GoString) (location : Int) (nearby : List Int) :
    List Event × Except GoError GoString :=
  let r := newRequest ssn location nearby
  match w.marshalIndent r with
  | .error err => ([], .error err)
  | .ok jsonData =>
    match httpNewRequest w (ascii "POST")
        (ascii "https://fp.trafikverket.se/boka/occasion-bundles") jsonData with
    | .error err => ([], .error err)
    | .ok req0 =>
      let req1 := req0.headerSet (ascii "User-Agent")
        (ascii "Mozilla/5.0 (X11; Linux x86_64; rv:109.0) Gecko/20100101 Firefox/116.0")
      let req2 := req1.headerSet (ascii "Content-Type") (ascii "application/json")
      match w.clientDo req2 with
      | .error err => ([.clientDo req2], .error err)
      | .ok resp =>
        let out := Event.stdout (fmtSprintf (ascii "HTTP: %v\n ") [.str resp.Status])
        match resp.Body with
        | .error err => ([.clientDo req2, out, .bodyClose], .error err)
        | .ok response =>
          match w.unmarshal response with
          | .error err => ([.clientDo req2, out, .bodyClose], .error err)
          | .ok queryResponse =>
            ([.clientDo req2, out, .bodyClose], .ok (formatResponse queryResponse))

/-! ## `loop` -/

/-- How one iteration of `loop` ends. -/
inductive Step where
  /-- The iteration reached its end; the next one starts with this `lastlog`. -/
  | next (lastlog : Time)
  /-- The statement `return err`. -/
  | ret (err : GoError)
  /-- A run-time panic. -/
  | panic
  deriving DecidableEq, Repr

/-- The body of the `for` of `loop`, for the iteration counter `i`: the events
it causes, in order, and how it ends. -/
def loopBody (topic : GoString) (location : Int) (nearby : List Int) (i : Nat)
    (lastlog : Time) (w : World) : List Event × Step :=
  let read := Event.readFile (ascii "personnummer.txt")
  match readSsns w.readFile with
  | .error err => ([read], .ret err)
  | .ok ssns =>
    if ssns.length = 0 then
      ([read], .ret (.errorsNew (ascii "No personnnumer present. Please add at least one.")))
    else
      let draw := Event.randIntn ssns.length
      match randIntn w ssns.length with
      | none => ([read, draw], .panic)
      | some k =>
        match ssns[k]? with
        | none => ([read, draw], .panic)
        | some ssn =>
          match doCheck w ssn location nearby with
          | (evs, .error err) => ([read, draw] ++ evs, .ret err)
          | (evs, .ok msg) =>
            let notify :=
              if msg.length > 0 then
                let _ := w.post
                [Event.httpPost (fmtSprintf (ascii "https://ntfy.sh/%s") [.str topic])
                   (ascii "text/plain") msg,
                 Event.sleep (10 * Minute)]
              else []
            let log :=
              if timeSub w.clockSince lastlog > Hour then
                ([Event.stdout (fmtSprintf (ascii "Checked %d times, using %d personnummer\n")
                    [.int (i + 1), .int ssns.length])], w.clockNow)
              else ([], lastlog)
            ([read, draw] ++ evs ++ notify ++ log.1 ++ [Event.sleep (30 * Second)], .next log.2)

/-- How a run of `loop` stands after some iterations. -/
inductive LoopResult where
  /-- The loop is about to start the iteration `i` with this `lastlog`. -/
  | running (i : Nat) (lastlog : Time)
  /-- The loop returned this error. -/
  | returned (err : GoError)
  /-- The loop panicked. -/
  | panicked
  deriving DecidableEq, Repr

/-- The `for` of `loop` from the iteration `i` on, for at most `fuel`
iterations; `world i` is the outside world during the iteration `i`.  The
statement `return nil` after the `for` is never reached. -/
def loopFrom (topic : GoString) (location : Int) (nearby : List Int) (world : Nat → World) :
    Nat → Nat → Time → List Event × LoopResult
  | 0, i, lastlog => ([], .running i lastlog)
  | fuel + 1, i, lastlog =>
    match loopBody topic location nearby i lastlog (world i) with
    | (evs, .next lastlog2) =>
      let later := loopFrom topic location nearby world fuel (i + 1) lastlog2
      (evs ++ later.1, later.2)
    | (evs, .ret err) => (evs, .returned err)
    | (evs, .panic) => (evs, .panicked)

/-- The function `loop`, run for at most `fuel` iterations: `i` starts at `0`
and `lastlog` at the zero time. -/
def loop (topic : GoString) (location : Int) (nearby : List Int) (world : Nat → World)
    (fuel : Nat) : List Event × LoopResult :=
  loopFrom topic location nearby world fuel 0 zeroTime

/-! ## Concrete inputs -/

/-- The response of the formatting example: one bundle with one occasion. -/
def scenarioResponse : res :=
  ⟨[⟨[⟨ascii "2024-05-01", ascii "10:00", ascii "Site A"⟩]⟩]⟩

/-- The request `doCheck` sends when the encoded query is `body`. -/
def scenarioRequest (body : GoString) : HTTPRequest where
  Method := ascii "POST"
  URL := ascii "https://fp.trafikverket.se/boka/occasion-bundles"
  Header :=
    [(ascii "User-Agent",
      ascii "Mozilla/5.0 (X11; Linux x86_64; rv:109.0) Gecko/20100101 Firefox/116.0"),
     (ascii "Content-Type", ascii "application/json")]
  Body := body

/-- The world of the end-to-end scenario: the file holds `198001011234`, the
check answers with `scenarioResponse`, the relay is down. -/
def scenarioWorld : World where
  readFile := .ok (ascii "198001011234\n")
  random := 7
  marshalIndent := fun _ => .ok (ascii "query")
  newRequestErr := none
  clientDo := fun _ => .ok ⟨ascii "200 OK", .ok (ascii "answer")⟩
  unmarshal := fun _ => .ok scenarioResponse
  post := .error (.lib (ascii "connection refused"))
  clockSince := 1700000000 * Second
  clockNow := 1700000000 * Second

/-- The scenario with an answer whose bundle list is empty. -/
def quietWorld : World :=
  { scenarioWorld with unmarshal := fun _ => .ok ⟨[]⟩ }

/-- The scenario with an answer whose only occasion has empty fields. -/
def blankFieldsWorld : World :=
  { scenarioWorld with unmarshal := fun _ => .ok ⟨[⟨[⟨[], [], []⟩]⟩]⟩ }

/-- The scenario with a check request that fails in the network. -/
def offlineWorld : World :=
  { scenarioWorld with clientDo := fun _ => .error (.lib (ascii "no route to host")) }

/-- The scenario with a file of blank lines only. -/
def blankFileWorld : World :=
  { scenarioWorld with readFile := .ok (ascii "\r\n\n") }

/-- The scenario with a file that cannot be read. -/
def missingFileWorld : World :=
  { scenarioWorld with readFile := .error (.lib (ascii "no such file or directory")) }

/-! ## Lemmas on the string functions -/

theorem readSsnsLoop_from (segments acc : List GoString) :
    segments.foldl (fun res n => if n.length > 0 then res ++ [n] else res) acc
      = acc ++ segments.filter (fun seg => decide (0 < seg.length)) := by
  induction segments generalizing acc with
  | nil => simp
  | cons s ss ih =>
    rw [List.foldl_cons, ih]
    by_cases h : s.length > 0
    · simp [h, List.filter_cons]
    · simp [h, List.filter_cons]

theorem readSsnsLoop_eq_filter (segments : List GoString) :
    readSsnsLoop segments = segments.filter (fun seg => decide (0 < seg.length)) := by
  unfold readSsnsLoop
  rw [readSsnsLoop_from]
  simp

theorem lf_isPrefixOf (c : Byte) (cs : GoString) :
    lf.isPrefixOf (c :: cs) = decide (c = LF) := by
  by_cases h : c = LF
  · subst h; simp [lf, List.isPrefixOf]
  · have h2 : ¬ LF = c := fun e => h e.symm
    simp [lf, List.isPrefixOf, h, h2]

theorem splitAux_ne_nil (sep : GoString) (skip : Nat) (s : GoString) :
    splitAux sep skip s ≠ [] := by
  induction s generalizing skip with
  | nil => cases skip <;> simp [splitAux]
  | cons c cs ih =>
    cases skip with
    | succ k => simpa [splitAux] using ih k
    | zero =>
      unfold splitAux
      split
      · simp
      · split <;> simp

theorem splitAux_lf_cons_lf (cs : GoString) :
    splitAux lf 0 (LF :: cs) = [] :: splitAux lf 0 cs := by
  rw [splitAux, lf_isPrefixOf]
  simp [lf]

theorem splitAux_lf_cons (c : Byte) (cs : GoString) (h : c ≠ LF) :
    ∃ seg rest, splitAux lf 0 cs = seg :: rest ∧ splitAux lf 0 (c :: cs) = (c :: seg) :: rest := by
  cases hs : splitAux lf 0 cs with
  | nil => exact absurd hs (splitAux_ne_nil _ _ _)
  | cons seg rest =>
    refine ⟨seg, rest, rfl, ?_⟩
    rw [splitAux, lf_isPrefixOf]
    simp [h, hs]

theorem splitAux_lf_no_lf (s : GoString) :
    ∀ seg ∈ splitAux lf 0 s, LF ∉ seg := by
  induction s with
  | nil => simp [splitAux]
  | cons c cs ih =>
    by_cases h : c = LF
    · subst h
      rw [splitAux_lf_cons_lf]
      intro seg hseg
      rcases List.mem_cons.1 hseg with h1 | h1
      · subst h1; simp
      · exact ih seg h1
    · obtain ⟨seg0, rest, h1, h2⟩ := splitAux_lf_cons c cs h
      rw [h2]
      rw [h1] at ih
      intro seg hseg
      rcases List.mem_cons.1 hseg with h3 | h3
      · subst h3
        intro hmem
        rcases List.mem_cons.1 hmem with h4 | h4
        · exact h h4.symm
        · exact ih seg0 (List.mem_cons_self _ _) h4
      · exact ih seg (List.mem_cons_of_mem _ h3)

theorem splitAux_lf_line (l : GoString) (h : LF ∉ l) : splitAux lf 0 l = [l] := by
  induction l with
  | nil => simp [splitAux]
  | cons c cs ih =>
    have hc : c ≠ LF := fun e => h (by simp [e])
    have hcs : LF ∉ cs := fun e => h (List.mem_cons_of_mem _ e)
    obtain ⟨seg, rest, h1, h2⟩ := splitAux_lf_cons c cs hc
    rw [ih hcs] at h1
    injection h1 with h3 h4
    rw [h2, ← h3, ← h4]

theorem splitAux_lf_line_append (l r : GoString) (h : LF ∉ l) :
    splitAux lf 0 (l ++ LF :: r) = l :: splitAux lf 0 r := by
  induction l with
  | nil => simpa using splitAux_lf_cons_lf r
  | cons c cs ih =>
    have hc : c ≠ LF := fun e => h (by simp [e])
    have hcs : LF ∉ cs := fun e => h (List.mem_cons_of_mem _ e)
    obtain ⟨seg, rest, h1, h2⟩ := splitAux_lf_cons c (cs ++ LF :: r) hc
    rw [ih hcs] at h1
    injection h1 with h3 h4
    rw [List.cons_append, h2, ← h3, ← h4]

theorem replaceAllAux_crlf_cons (c : Byte) (cs : GoString) (h : c ≠ CR) :
    replaceAllAux crlf lf 0 (c :: cs) = c :: replaceAllAux crlf lf 0 cs := by
  have h2 : ¬ CR = c := fun e => h e.symm
  simp [replaceAllAux, crlf, List.isPrefixOf, h2]

theorem replaceAllAux_crlf_match (r : GoString) :
    replaceAllAux crlf lf 0 (CR :: LF :: r) = LF :: replaceAllAux crlf lf 0 r := by
  simp [replaceAllAux, crlf, lf, List.isPrefixOf]

theorem replaceAllAux_crlf_line_append (l r : GoString) (h : CR ∉ l) :
    replaceAllAux crlf lf 0 (l ++ r) = l ++ replaceAllAux crlf lf 0 r := by
  induction l with
  | nil => simp
  | cons c cs ih =>
    have hc : c ≠ CR := fun e => h (by simp [e])
    have hcs : CR ∉ cs := fun e => h (List.mem_cons_of_mem _ e)
    rw [List.cons_append, replaceAllAux_crlf_cons _ _ hc, ih hcs, List.cons_append]

theorem replaceAll_join_crlf (lines : List GoString) (t : GoString)
    (h : ∀ l ∈ lines, CR ∉ l) :
    stringsReplaceAll (stringsJoin lines crlf ++ t) crlf lf
      = stringsJoin lines lf ++ stringsReplaceAll t crlf lf := by
  unfold stringsReplaceAll
  induction lines with
  | nil => simp [stringsJoin]
  | cons e es ih =>
    have he : CR ∉ e := h e (List.mem_cons_self _ _)
    have hes : ∀ l ∈ es, CR ∉ l := fun l hl => h l (List.mem_cons_of_mem _ hl)
    cases es with
    | nil => simpa [stringsJoin] using replaceAllAux_crlf_line_append e t he
    | cons e2 es2 =>
      have ih2 := ih hes
      simp only [stringsJoin, List.append_assoc]
      rw [replaceAllAux_crlf_line_append _ _ he]
      show e ++ replaceAllAux crlf lf 0 (CR :: LF :: (stringsJoin (e2 :: es2) crlf ++ t)) = _
      rw [replaceAllAux_crlf_match, ih2]
      simp [lf]

theorem filter_split_join_lf (lines : List GoString) (h : ∀ l ∈ lines, LF ∉ l) :
    (stringsSplit (stringsJoin lines lf) lf).filter (fun seg => decide (0 < seg.length))
      = lines.filter (fun seg => decide (0 < seg.length)) := by
  unfold stringsSplit
  induction lines with
  | nil => simp [stringsJoin, splitAux]
  | cons e es ih =>
    have he : LF ∉ e := h e (List.mem_cons_self _ _)
    have hes : ∀ l ∈ es, LF ∉ l := fun l hl => h l (List.mem_cons_of_mem _ hl)
    cases es with
    | nil => simp [stringsJoin, splitAux_lf_line e he]
    | cons e2 es2 =>
      have ih2 := ih hes
      simp only [stringsJoin, List.append_assoc]
      show List.filter _ (splitAux lf 0 (e ++ LF :: stringsJoin (e2 :: es2) lf)) = _
      rw [splitAux_lf_line_append _ _ he, List.filter_cons, ih2]
      conv_rhs => rw [List.filter_cons]

theorem filter_split_join_lf_final (lines : List GoString) (h : ∀ l ∈ lines, LF ∉ l) :
    (stringsSplit (stringsJoin lines lf ++ lf) lf).filter (fun seg => decide (0 < seg.length))
      = lines.filter (fun seg => decide (0 < seg.length)) := by
  unfold stringsSplit
  induction lines with
  | nil => simp [stringsJoin, splitAux, lf, List.isPrefixOf]
  | cons e es ih =>
    have he : LF ∉ e := h e (List.mem_cons_self _ _)
    have hes : ∀ l ∈ es, LF ∉ l := fun l hl => h l (List.mem_cons_of_mem _ hl)
    cases es with
    | nil =>
      show List.filter _ (splitAux lf 0 (e ++ LF :: [])) = _
      rw [splitAux_lf_line_append _ _ he]
      simp [splitAux, List.filter_cons]
    | cons e2 es2 =>
      have ih2 := ih hes
      simp only [stringsJoin, List.append_assoc]
      show List.filter _ (splitAux lf 0 (e ++ LF :: (stringsJoin (e2 :: es2) lf ++ lf))) = _
      rw [splitAux_lf_line_append _ _ he, List.filter_cons, ih2]
      conv_rhs => rw [List.filter_cons]

/-! ## Lemmas on the formatting step -/

theorem occasionLine_eq (occ : occasion) :
    occasionLine occ = occ.Date ++ ascii " " ++ occ.Time ++ ascii " at " ++ occ.LocationName := by
  have h : occasionLine occ
      = occ.Date ++ 32 :: (occ.Time ++ 32 :: 97 :: 116 :: 32 :: (occ.LocationName ++ [])) := rfl
  have h1 : ascii " " = [32] := by decide
  have h2 : ascii " at " = [32, 97, 116, 32] := by decide
  rw [h, h1, h2]
  simp

theorem foldl_append_line (occs : List occasion) (acc : List GoString) :
    occs.foldl (fun msg occ => msg ++ [occasionLine occ]) acc = acc ++ occs.map occasionLine := by
  induction occs generalizing acc with
  | nil => simp
  | cons o os ih => rw [List.foldl_cons, ih]; simp

theorem stringsJoin_eq_intercalate (elems : List GoString) (sep : GoString) :
    stringsJoin elems sep = List.intercalate sep elems := by
  induction elems with
  | nil => simp [stringsJoin, List.intercalate]
  | cons e es ih =>
    cases es with
    | nil => simp [stringsJoin, List.intercalate]
    | cons e2 es2 =>
      rw [stringsJoin, ih]
      simp [List.intercalate, List.intersperse]

theorem formatResponse_cons (b : bundle) (rest : List bundle) :
    formatResponse ⟨b :: rest⟩ = stringsJoin (b.Occasions.map occasionLine) lf := by
  unfold formatResponse
  simp [foldl_append_line]

theorem formatResponse_nil : formatResponse ⟨[]⟩ = [] := by
  simp [formatResponse]

theorem stringsJoin_cons_ne_nil (e : GoString) (es : List GoString) (sep : GoString)
    (h : e ≠ []) : stringsJoin (e :: es) sep ≠ [] := by
  cases es with
  | nil => simpa [stringsJoin] using h
  | cons e2 es2 => simp [stringsJoin, h]

theorem occasionLine_ne_nil (occ : occasion) : occasionLine occ ≠ [] := by
  rw [occasionLine_eq]
  have h2 : ascii " at " = [32, 97, 116, 32] := by decide
  simp [h2]

theorem occasionLine_no_lf (occ : occasion)
    (h : LF ∉ occ.Date ∧ LF ∉ occ.Time ∧ LF ∉ occ.LocationName) : LF ∉ occasionLine occ := by
  rw [occasionLine_eq]
  have h1 : ascii " " = [32] := by decide
  have h2 : ascii " at " = [32, 97, 116, 32] := by decide
  have h3 : LF ≠ (32 : Byte) := by decide
  have h4 : LF ≠ (97 : Byte) := by decide
  have h5 : LF ≠ (116 : Byte) := by decide
  rw [h1, h2]
  simp [h.1, h.2.1, h.2.2, h3, h4, h5]

theorem split_join_lf (lines : List GoString) (hne : lines ≠ []) (h : ∀ l ∈ lines, LF ∉ l) :
    stringsSplit (stringsJoin lines lf) lf = lines := by
  unfold stringsSplit
  induction lines with
  | nil => exact absurd rfl hne
  | cons e es ih =>
    have he : LF ∉ e := h e (List.mem_cons_self _ _)
    have hes : ∀ l ∈ es, LF ∉ l := fun l hl => h l (List.mem_cons_of_mem _ hl)
    cases es with
    | nil => simp [stringsJoin, splitAux_lf_line e he]
    | cons e2 es2 =>
      have ih2 := ih (by simp) hes
      simp only [stringsJoin, List.append_assoc]
      show splitAux lf 0 (e ++ LF :: stringsJoin (e2 :: es2) lf) = _
      rw [splitAux_lf_line_append _ _ he, ih2]

/-! ## Claims on the request and on the formatting step -/

/-- C2: for a response with at least one bundle, the message is the lines
`<date> <time> at <locationName>` of the occasions of the first bundle, in
order, with one newline between consecutive lines and none before or after;
the response with the single occasion 2024-05-01, 10:00, Site A gives exactly
`2024-05-01 10:00 at Site A`. -/
theorem formatResponse_joins_first_bundle (b : bundle) (rest : List bundle) :
    formatResponse ⟨b :: rest⟩
        = List.intercalate lf (b.Occasions.map (fun occ =>
            occ.Date ++ ascii " " ++ occ.Time ++ ascii " at " ++ occ.LocationName))
      ∧ formatResponse ⟨[⟨[⟨ascii "2024-05-01", ascii "10:00", ascii "Site A"⟩]⟩]⟩
        = ascii "2024-05-01 10:00 at Site A" := by
  constructor
  · rw [formatResponse_cons, stringsJoin_eq_intercalate]
    congr 1
    exact List.map_congr_left (fun occ _ => occasionLine_eq occ)
  · decide

/-- C4: the message depends only on the first bundle: two responses with the
same first bundle (or both without a bundle) give the same message, whatever
their later bundles are. -/
theorem formatResponse_only_first_bundle (r1 r2 : res)
    (h : r1.Bundles.head? = r2.Bundles.head?) : formatResponse r1 = formatResponse r2 := by
  obtain ⟨bs1⟩ := r1
  obtain ⟨bs2⟩ := r2
  cases bs1 with
  | nil =>
    cases bs2 with
    | nil => rfl
    | cons b2 t2 => simp at h
  | cons b1 t1 =>
    cases bs2 with
    | nil => simp at h
    | cons b2 t2 =>
      simp at h
      subst h
      rw [formatResponse_cons, formatResponse_cons]

/-- Witness of C4: a response with a populated second bundle and the response
with the first bundle alone. -/
theorem formatResponse_only_first_bundle_witness :
    formatResponse ⟨[⟨[⟨ascii "2024-05-01", ascii "10:00", ascii "Site A"⟩]⟩,
                     ⟨[⟨ascii "2024-06-02", ascii "11:30", ascii "Site B"⟩]⟩]⟩
      = formatResponse ⟨[⟨[⟨ascii "2024-05-01", ascii "10:00", ascii "Site A"⟩]⟩]⟩ :=
  formatResponse_only_first_bundle _ _ (by decide)

/-- C5: `newRequest` forwards the identifier, the location and the nearby
list unchanged, sets the documented constants, and leaves every other field
at its zero value. -/
theorem newRequest_fields (ssn : GoString) (location : Int) (nearby : List Int) :
    let r := newRequest ssn location nearby
    r.BookingSession.SocialSecurityNumber = ssn
      ∧ r.BookingSession.LicenceId = 4
      ∧ r.BookingSession.BookingModeId = 0
      ∧ r.BookingSession.IgnoreDebt = false
      ∧ r.BookingSession.IgnoreBookingHindrance = true
      ∧ r.BookingSession.ExaminationTypeId = 0
      ∧ r.BookingSession.ExcludeExaminationCategories = []
      ∧ r.BookingSession.RescheduleTypeId = 0
      ∧ r.BookingSession.PaymentIsActive = false
      ∧ r.BookingSession.PaymentReference = none
      ∧ r.BookingSession.PaymentUrl = none
      ∧ r.BookingSession.SearchedMonths = 0
      ∧ r.OccasionBundleQuery.StartDate = ascii "1970-01-01T00:00:00.000Z"
      ∧ r.OccasionBundleQuery.SearchedMonths = 0
      ∧ r.OccasionBundleQuery.LocationId = location
      ∧ r.OccasionBundleQuery.NearbyLocationIds = nearby
      ∧ r.OccasionBundleQuery.LanguageId = 13
      ∧ r.OccasionBundleQuery.VehicleTypeId = 1
      ∧ r.OccasionBundleQuery.TachographTypeId = 1
      ∧ r.OccasionBundleQuery.OccasionChoiceId = 1
      ∧ r.OccasionBundleQuery.ExaminationTypeId = 10 := by
  simp [newRequest]

/-- C10, as stated, fails: one occasion whose location name holds a newline
gives a message that splits into two lines. -/
theorem formatResponse_lines_counterexample :
    ¬ (stringsSplit (formatResponse ⟨[⟨[⟨ascii "2024-05-01", ascii "10:00", ascii "Site\nA"⟩]⟩]⟩) lf
        = [ascii "2024-05-01 10:00 at Site\nA"])
      ∧ (stringsSplit (formatResponse ⟨[⟨[⟨ascii "2024-05-01", ascii "10:00",
            ascii "Site\nA"⟩]⟩]⟩) lf).length = 2 := by
  decide

/-- C10, amended: when the first bundle has n >= 1 occasions and no date,
time or location name of them holds a newline, splitting the message at
newlines gives exactly the n lines of the occasions, in order. -/
theorem formatResponse_lines (b : bundle) (rest : List bundle)
    (hne : b.Occasions ≠ [])
    (h : ∀ occ ∈ b.Occasions, LF ∉ occ.Date ∧ LF ∉ occ.Time ∧ LF ∉ occ.LocationName) :
    stringsSplit (formatResponse ⟨b :: rest⟩) lf
        = b.Occasions.map (fun occ =>
            occ.Date ++ ascii " " ++ occ.Time ++ ascii " at " ++ occ.LocationName)
      ∧ (stringsSplit (formatResponse ⟨b :: rest⟩) lf).length = b.Occasions.length := by
  have hsplit : stringsSplit (formatResponse ⟨b :: rest⟩) lf = b.Occasions.map occasionLine := by
    rw [formatResponse_cons]
    apply split_join_lf
    · simpa using hne
    · intro l hl
      obtain ⟨occ, hocc, rfl⟩ := List.mem_map.1 hl
      exact occasionLine_no_lf occ (h occ hocc)
  constructor
  · rw [hsplit]
    exact List.map_congr_left (fun occ _ => occasionLine_eq occ)
  · rw [hsplit, List.length_map]

/-- Witness of the amended C10: two occasions give two lines. -/
theorem formatResponse_lines_witness :
    stringsSplit (formatResponse ⟨[⟨[⟨ascii "2024-05-01", ascii "10:00", ascii "Site A"⟩,
        ⟨ascii "2024-06-02", ascii "11:30", ascii "Site B"⟩]⟩]⟩) lf
        = [ascii "2024-05-01" ++ ascii " " ++ ascii "10:00" ++ ascii " at " ++ ascii "Site A",
           ascii "2024-06-02" ++ ascii " " ++ ascii "11:30" ++ ascii " at " ++ ascii "Site B"]
      ∧ (stringsSplit (formatResponse ⟨[⟨[⟨ascii "2024-05-01", ascii "10:00", ascii "Site A"⟩,
        ⟨ascii "2024-06-02", ascii "11:30", ascii "Site B"⟩]⟩]⟩) lf).length = 2 :=
  formatResponse_lines ⟨[⟨ascii "2024-05-01", ascii "10:00", ascii "Site A"⟩,
        ⟨ascii "2024-06-02", ascii "11:30", ascii "Site B"⟩]⟩ [] (by decide) (by decide)

/-! ## Claims on `readSsns` -/

theorem parseSsns_eq_filter (pns : GoString) :
    parseSsns pns
      = (stringsSplit (stringsReplaceAll pns crlf lf) lf).filter
          (fun seg => decide (0 < seg.length)) := by
  unfold parseSsns
  exact readSsnsLoop_eq_filter _

theorem replaceCRLF_cons_cons (c d : Byte) (rest : GoString) :
    replaceCRLF (c :: d :: rest)
      = if c = CR ∧ d = LF then LF :: replaceCRLF rest else c :: replaceCRLF (d :: rest) := by
  rw [replaceCRLF]

theorem replaceAllAux_eq_replaceCRLF (n : Nat) :
    ∀ s : GoString, s.length ≤ n → replaceAllAux crlf lf 0 s = replaceCRLF s := by
  induction n with
  | zero =>
    intro s hs
    have : s = [] := List.length_eq_zero.1 (Nat.le_zero.1 hs)
    subst this
    simp [replaceAllAux, replaceCRLF]
  | succ n ih =>
    intro s hs
    match s, hs with
    | [], _ => simp [replaceAllAux, replaceCRLF]
    | [c], _ => simp [replaceAllAux, replaceCRLF, crlf, List.isPrefixOf]
    | c :: d :: rest, hs =>
      have hrest : rest.length ≤ n := by simp at hs; omega
      have htail : (d :: rest).length ≤ n := by simp at hs ⊢; omega
      rw [replaceCRLF_cons_cons]
      by_cases h : c = CR ∧ d = LF
      · obtain ⟨h1, h2⟩ := h
        subst h1 h2
        rw [replaceAllAux_crlf_match, ih rest hrest]
        simp
      · rw [if_neg h, ← ih (d :: rest) htail]
        by_cases hc : c = CR
        · have hd : ¬ LF = d := fun e => h ⟨hc, e.symm⟩
          subst hc
          simp [replaceAllAux, crlf, List.isPrefixOf, hd]
        · exact replaceAllAux_crlf_cons c (d :: rest) hc

theorem stringsReplaceAll_eq_replaceCRLF (s : GoString) :
    stringsReplaceAll s crlf lf = replaceCRLF s :=
  replaceAllAux_eq_replaceCRLF s.length s (Nat.le_refl _)

theorem stringsSplit_eq_splitOn (s : GoString) : stringsSplit s lf = s.splitOn LF := by
  unfold stringsSplit List.splitOn
  induction s with
  | nil => simp [splitAux]
  | cons c cs ih =>
    rw [List.splitOnP_cons]
    by_cases h : c = LF
    · subst h
      rw [splitAux_lf_cons_lf, ih]
      simp
    · obtain ⟨seg, rest, h1, h2⟩ := splitAux_lf_cons c cs h
      rw [h2, ← ih, h1]
      simp [h]

theorem parseSsns_eq_nonEmptyLines (pns : GoString) : parseSsns pns = nonEmptyLines pns := by
  rw [parseSsns_eq_filter, stringsReplaceAll_eq_replaceCRLF, stringsSplit_eq_splitOn]
  rfl

theorem mem_stringsJoin (x : Byte) (lines : List GoString) (sep : GoString)
    (h : x ∈ stringsJoin lines sep) : x ∈ sep ∨ ∃ l ∈ lines, x ∈ l := by
  induction lines with
  | nil => simp [stringsJoin] at h
  | cons e es ih =>
    cases es with
    | nil => exact Or.inr ⟨e, by simp, by simpa [stringsJoin] using h⟩
    | cons e2 es2 =>
      simp only [stringsJoin, List.mem_append] at h
      rcases h with (h | h) | h
      · exact Or.inr ⟨e, by simp, h⟩
      · exact Or.inl h
      · rcases ih h with h1 | ⟨l, hl, hx⟩
        · exact Or.inl h1
        · exact Or.inr ⟨l, List.mem_cons_of_mem _ hl, hx⟩

theorem replaceAll_no_cr (s : GoString) (h : CR ∉ s) : stringsReplaceAll s crlf lf = s := by
  have h1 := replaceAllAux_crlf_line_append s [] h
  simpa [stringsReplaceAll, replaceAllAux] using h1

theorem parseSsns_join_lf (lines : List GoString) (h : ∀ l ∈ lines, CR ∉ l ∧ LF ∉ l)
    (final : Bool) :
    parseSsns (stringsJoin lines lf ++ (if final then lf else []))
      = lines.filter (fun l => decide (0 < l.length)) := by
  have hcr : CR ∉ stringsJoin lines lf ++ (if final then lf else []) := by
    intro hmem
    have hlf : CR ∉ lf := by decide
    rcases List.mem_append.1 hmem with h1 | h1
    · rcases mem_stringsJoin _ _ _ h1 with h2 | ⟨l, hl, hx⟩
      · exact hlf h2
      · exact (h l hl).1 hx
    · cases final
      · simp at h1
      · exact hlf (by simpa using h1)
  rw [parseSsns_eq_filter, replaceAll_no_cr _ hcr]
  cases final
  · simpa using filter_split_join_lf lines (fun l hl => (h l hl).2)
  · simpa using filter_split_join_lf_final lines (fun l hl => (h l hl).2)

theorem parseSsns_join_crlf (lines : List GoString) (h : ∀ l ∈ lines, CR ∉ l ∧ LF ∉ l)
    (final : Bool) :
    parseSsns (stringsJoin lines crlf ++ (if final then crlf else []))
      = lines.filter (fun l => decide (0 < l.length)) := by
  have hrep : stringsReplaceAll (stringsJoin lines crlf ++ (if final then crlf else [])) crlf lf
      = stringsJoin lines lf ++ (if final then lf else []) := by
    rw [replaceAll_join_crlf lines _ (fun l hl => (h l hl).1)]
    cases final
    · simp [stringsReplaceAll, replaceAllAux]
    · have h2 : stringsReplaceAll crlf crlf lf = lf := by decide
      simp [h2]
  rw [parseSsns_eq_filter, hrep]
  cases final
  · simpa using filter_split_join_lf lines (fun l hl => (h l hl).2)
  · simpa using filter_split_join_lf_final lines (fun l hl => (h l hl).2)

/-- C1: for every content of a readable file, `readSsns` returns exactly the
non-empty lines of the content, in order and with duplicates: the list got by
replacing every CRLF by LF, cutting at every LF and keeping the pieces of
length > 0 (stated without the library functions the code calls); no returned
entry is empty and none holds an LF.  On the content `a CRLF b LF LF c CR` the
result is `a`, `b`, `c CR`. -/
theorem readSsns_returns_nonEmptyLines (pns : GoString) :
    readSsns (.ok pns)
        = .ok (((replaceCRLF pns).splitOn LF).filter (fun seg => decide (0 < seg.length)))
      ∧ (∃ ssns, readSsns (.ok pns) = .ok ssns
          ∧ ssns.Sublist ((replaceCRLF pns).splitOn LF)
          ∧ (∀ seg ∈ (replaceCRLF pns).splitOn LF, seg ∈ ssns ↔ 0 < seg.length)
          ∧ (∀ n ∈ ssns, n ≠ [] ∧ 0 < n.length ∧ LF ∉ n))
      ∧ readSsns (.ok (ascii "a\r\nb\n\nc\r")) = .ok [ascii "a", ascii "b", ascii "c\r"]
      ∧ nonEmptyLines (ascii "a\r\nb\n\nc\r") = [ascii "a", ascii "b", ascii "c\r"] := by
  have hret : readSsns (.ok pns) = .ok (nonEmptyLines pns) := by
    simp [readSsns, parseSsns_eq_nonEmptyLines]
  refine ⟨hret, ⟨nonEmptyLines pns, hret, List.filter_sublist _, ?_, ?_⟩, rfl, by decide⟩
  · intro seg hseg
    simp [nonEmptyLines, List.mem_filter, hseg]
  · intro n hn
    obtain ⟨h1, h2⟩ := List.mem_filter.1 hn
    have hpos : 0 < n.length := by simpa using h2
    refine ⟨List.length_pos.1 hpos, hpos, ?_⟩
    rw [← stringsSplit_eq_splitOn] at h1
    exact splitAux_lf_no_lf _ n h1

/-- C9: for lines without CR and LF, the content that joins them with CRLF and
the content that joins them with LF, each with or without a final line ending,
parse to the same list: the non-empty lines in order. -/
theorem readSsns_crlf_lf_interchangeable (lines : List GoString)
    (h : ∀ l ∈ lines, CR ∉ l ∧ LF ∉ l) (finalCRLF finalLF : Bool) :
    readSsns (.ok (stringsJoin lines crlf ++ (if finalCRLF then crlf else [])))
        = .ok (lines.filter (fun l => decide (0 < l.length)))
      ∧ readSsns (.ok (stringsJoin lines lf ++ (if finalLF then lf else [])))
        = .ok (lines.filter (fun l => decide (0 < l.length))) := by
  simp only [readSsns]
  rw [parseSsns_join_crlf lines h, parseSsns_join_lf lines h]
  exact ⟨rfl, rfl⟩

/-- Witness of C9: three lines, one of them blank, with a final CRLF on one
side and no final LF on the other. -/
theorem readSsns_crlf_lf_interchangeable_witness :
    readSsns (.ok (stringsJoin [ascii "198001011234", [], ascii "199002022345"] crlf
        ++ (if true then crlf else [])))
        = .ok ([ascii "198001011234", [], ascii "199002022345"].filter
            (fun l => decide (0 < l.length)))
      ∧ readSsns (.ok (stringsJoin [ascii "198001011234", [], ascii "199002022345"] lf
        ++ (if false then lf else [])))
        = .ok ([ascii "198001011234", [], ascii "199002022345"].filter
            (fun l => decide (0 < l.length))) :=
  readSsns_crlf_lf_interchangeable [ascii "198001011234", [], ascii "199002022345"]
    (by decide) true false

/-! ## Lemmas on `doCheck` and `loop` -/

theorem errorf_read_text (err : GoError) :
    fmtSprintf (ascii "Failed to read personnumer: %v") [.err err]
      = ascii "Failed to read personnumer: " ++ err.Error := by
  have h : fmtSprintf (ascii "Failed to read personnumer: %v") [.err err]
      = ascii "Failed to read personnumer: " ++ (err.Error ++ []) := rfl
  rw [h, List.append_nil]

theorem relay_url_text (topic : GoString) :
    fmtSprintf (ascii "https://ntfy.sh/%s") [.str topic] = ascii "https://ntfy.sh/" ++ topic := by
  have h : fmtSprintf (ascii "https://ntfy.sh/%s") [.str topic]
      = ascii "https://ntfy.sh/" ++ (topic ++ []) := rfl
  rw [h, List.append_nil]

theorem doCheck_events (w : World) (ssn : GoString) (location : Int) (nearby : List Int) :
    (doCheck w ssn location nearby).1 = []
      ∨ ∃ r, (doCheck w ssn location nearby).1 = [Event.clientDo r]
          ∨ ∃ out, (doCheck w ssn location nearby).1
              = [Event.clientDo r, Event.stdout out, Event.bodyClose] := by
  unfold doCheck
  simp only
  split
  · exact Or.inl rfl
  · split
    · exact Or.inl rfl
    · split
      · exact Or.inr ⟨_, Or.inl rfl⟩
      · split
        · exact Or.inr ⟨_, Or.inr ⟨_, rfl⟩⟩
        · split
          · exact Or.inr ⟨_, Or.inr ⟨_, rfl⟩⟩
          · exact Or.inr ⟨_, Or.inr ⟨_, rfl⟩⟩

theorem doCheck_ok (w : World) (ssn : GoString) (location : Int) (nearby : List Int)
    (evs : List Event) (msg : GoString)
    (h : doCheck w ssn location nearby = (evs, .ok msg)) :
    ∃ queryResponse response, w.unmarshal response = .ok queryResponse
      ∧ msg = formatResponse queryResponse := by
  unfold doCheck at h
  simp only at h
  split at h
  · simp at h
  · split at h
    · simp at h
    · split at h
      · simp at h
      · split at h
        · simp at h
        · split at h
          · simp at h
          · refine ⟨_, _, by assumption, ?_⟩
            simp at h
            exact h.2.symm

theorem pick_length_pos (ssns : List GoString) (k : Nat) (ssn : GoString)
    (hpick : ssns[k]? = some ssn) : ssns.length ≠ 0 := by
  intro h0
  have : ssns = [] := List.length_eq_zero.1 h0
  subst this
  simp at hpick

theorem loopBody_read_error (topic : GoString) (location : Int) (nearby : List Int) (i : Nat)
    (lastlog : Time) (w : World) (e : GoError) (h : w.readFile = .error e) :
    loopBody topic location nearby i lastlog w
      = ([Event.readFile (ascii "personnummer.txt")],
         .ret (.fmtErrorf (ascii "Failed to read personnumer: " ++ e.Error))) := by
  simp [loopBody, readSsns, h, errorf_read_text]

theorem loopBody_no_ssns (topic : GoString) (location : Int) (nearby : List Int) (i : Nat)
    (lastlog : Time) (w : World) (pns : GoString) (h : w.readFile = .ok pns)
    (hempty : parseSsns pns = []) :
    loopBody topic location nearby i lastlog w
      = ([Event.readFile (ascii "personnummer.txt")],
         .ret (.errorsNew (ascii "No personnnumer present. Please add at least one."))) := by
  simp [loopBody, readSsns, h, hempty]

theorem loopBody_picked (topic : GoString) (location : Int) (nearby : List Int) (i : Nat)
    (lastlog : Time) (w : World) (ssns : List GoString) (ssn : GoString)
    (hread : readSsns w.readFile = .ok ssns)
    (hpick : ssns[w.random % ssns.length]? = some ssn) :
    loopBody topic location nearby i lastlog w
      = match doCheck w ssn location nearby with
        | (evs, .error err) =>
          ([Event.readFile (ascii "personnummer.txt"), Event.randIntn ssns.length] ++ evs,
            .ret err)
        | (evs, .ok msg) =>
          ([Event.readFile (ascii "personnummer.txt"), Event.randIntn ssns.length] ++ evs
            ++ (if msg.length > 0 then
                  [Event.httpPost (ascii "https://ntfy.sh/" ++ topic) (ascii "text/plain") msg,
                   Event.sleep 600000000000]
                else [])
            ++ (if timeSub w.clockSince lastlog > Hour then
                  [Event.stdout (fmtSprintf (ascii "Checked %d times, using %d personnummer\n")
                    [.int (i + 1), .int ssns.length])]
                else [])
            ++ [Event.sleep 30000000000],
            .next (if timeSub w.clockSince lastlog > Hour then w.clockNow else lastlog)) := by
  have hlen := pick_length_pos ssns _ ssn hpick
  have h10 : (10 : Int) * Minute = 600000000000 := by decide
  have h30 : (30 : Int) * Second = 30000000000 := by decide
  unfold loopBody
  simp only [hread, hlen, randIntn, if_false, hpick, relay_url_text, h10, h30]
  rcases hc : doCheck w ssn location nearby with ⟨evs, _ | msg⟩
  · rfl
  · simp only
    by_cases hlog : timeSub w.clockSince lastlog > Hour
    · simp [hlog]
    · simp [hlog]

theorem loopBody_ne_panic (topic : GoString) (location : Int) (nearby : List Int) (i : Nat)
    (lastlog : Time) (w : World) :
    (loopBody topic location nearby i lastlog w).2 ≠ .panic := by
  rcases hr : readSsns w.readFile with e | ssns
  · simp [loopBody, hr]
  · by_cases hlen : ssns.length = 0
    · simp [loopBody, hr, hlen]
    · have hlt : w.random % ssns.length < ssns.length := Nat.mod_lt _ (Nat.pos_of_ne_zero hlen)
      have hpick : ssns[w.random % ssns.length]? = some (ssns[w.random % ssns.length]) :=
        List.getElem?_eq_getElem hlt
      rw [loopBody_picked topic location nearby i lastlog w ssns _ hr hpick]
      rcases doCheck w (ssns[w.random % ssns.length]) location nearby with ⟨evs, _ | msg⟩
      · simp
      · simp

theorem loopFrom_add (topic : GoString) (location : Int) (nearby : List Int)
    (world : Nat → World) (k n : Nat) :
    ∀ (i0 : Nat) (l0 : Time) (tr : List Event) (i : Nat) (lastlog : Time),
      loopFrom topic location nearby world k i0 l0 = (tr, .running i lastlog) →
      loopFrom topic location nearby world (k + n) i0 l0
        = (tr ++ (loopFrom topic location nearby world n i lastlog).1,
           (loopFrom topic location nearby world n i lastlog).2) := by
  induction k with
  | zero =>
    intro i0 l0 tr i lastlog h
    simp [loopFrom] at h
    obtain ⟨h1, h2, h3⟩ := h
    subst h1 h2 h3
    simp
  | succ k ih =>
    intro i0 l0 tr i lastlog h
    have hk : k + 1 + n = (k + n) + 1 := by omega
    rw [hk]
    rw [loopFrom] at h
    rw [loopFrom]
    rcases hb : loopBody topic location nearby i0 l0 (world i0) with ⟨evs, l2 | err | _⟩
    · rw [hb] at h
      simp only at h
      rcases hl : loopFrom topic location nearby world k (i0 + 1) l2 with ⟨tr2, res2⟩
      rw [hl] at h
      simp only [Prod.mk.injEq] at h
      obtain ⟨h1, h2⟩ := h
      subst h1 h2
      simp [ih (i0 + 1) l2 tr2 i lastlog hl]
    · rw [hb] at h
      simp at h
    · rw [hb] at h
      simp at h

theorem loopBody_randIntn (topic : GoString) (location : Int) (nearby : List Int) (i : Nat)
    (lastlog : Time) (w : World) (n : Nat)
    (h : Event.randIntn n ∈ (loopBody topic location nearby i lastlog w).1) : 1 ≤ n := by
  rcases hr : readSsns w.readFile with e | ssns
  · simp [loopBody, hr] at h
  · by_cases hlen : ssns.length = 0
    · simp [loopBody, hr, hlen] at h
    · have hlt : w.random % ssns.length < ssns.length := Nat.mod_lt _ (Nat.pos_of_ne_zero hlen)
      have hpick : ssns[w.random % ssns.length]? = some (ssns[w.random % ssns.length]) :=
        List.getElem?_eq_getElem hlt
      rw [loopBody_picked topic location nearby i lastlog w ssns _ hr hpick] at h
      have hev := doCheck_events w (ssns[w.random % ssns.length]) location nearby
      rcases hc : doCheck w (ssns[w.random % ssns.length]) location nearby with ⟨evs, _ | msg⟩
      all_goals
        rw [hc] at h hev
        simp only at hev
        have hno : Event.randIntn n ∉ evs := by
          rcases hev with h0 | ⟨r, h1 | ⟨out, h2⟩⟩
          · subst h0; simp
          · subst h1; simp
          · subst h2; simp
      · have hn : n = ssns.length := by simpa [hno] using h
        omega
      · have hn : n = ssns.length := by
          simp only at h
          split_ifs at h <;> simpa [hno] using h
        omega

theorem loopFrom_ne_panicked (topic : GoString) (location : Int) (nearby : List Int)
    (world : Nat → World) (fuel : Nat) :
    ∀ (i : Nat) (lastlog : Time),
      (loopFrom topic location nearby world fuel i lastlog).2 ≠ .panicked := by
  induction fuel with
  | zero => intro i lastlog; simp [loopFrom]
  | succ fuel ih =>
    intro i lastlog
    rw [loopFrom]
    have hp := loopBody_ne_panic topic location nearby i lastlog (world i)
    rcases hb : loopBody topic location nearby i lastlog (world i) with ⟨evs, l2 | err | _⟩
    · exact ih (i + 1) l2
    · simp
    · rw [hb] at hp
      exact absurd rfl hp

theorem loopFrom_randIntn (topic : GoString) (location : Int) (nearby : List Int)
    (world : Nat → World) (fuel : Nat) :
    ∀ (i : Nat) (lastlog : Time) (n : Nat),
      Event.randIntn n ∈ (loopFrom topic location nearby world fuel i lastlog).1 → 1 ≤ n := by
  induction fuel with
  | zero => intro i lastlog n h; simp [loopFrom] at h
  | succ fuel ih =>
    intro i lastlog n h
    rw [loopFrom] at h
    have hr := loopBody_randIntn topic location nearby i lastlog (world i) n
    rcases hb : loopBody topic location nearby i lastlog (world i) with ⟨evs, l2 | err | _⟩
    all_goals
      rw [hb] at h hr
      simp only at h hr
    · rcases List.mem_append.1 h with h1 | h1
      · exact hr h1
      · exact ih (i + 1) l2 n h1
    · exact hr h
    · exact hr h

theorem loop_step (topic : GoString) (location : Int) (nearby : List Int)
    (world : Nat → World) (k n i : Nat) (lastlog : Time) (tr : List Event)
    (hrun : loop topic location nearby world k = (tr, .running i lastlog)) :
    loop topic location nearby world (k + n)
      = (tr ++ (loopFrom topic location nearby world n i lastlog).1,
         (loopFrom topic location nearby world n i lastlog).2) :=
  loopFrom_add topic location nearby world k n 0 zeroTime tr i lastlog hrun

theorem loopFrom_ret (topic : GoString) (location : Int) (nearby : List Int)
    (world : Nat → World) (fuel i : Nat) (lastlog : Time) (evs : List Event) (err : GoError)
    (hb : loopBody topic location nearby i lastlog (world i) = (evs, .ret err)) :
    loopFrom topic location nearby world (fuel + 1) i lastlog = (evs, .returned err) := by
  rw [loopFrom, hb]

theorem loopFrom_next (topic : GoString) (location : Int) (nearby : List Int)
    (world : Nat → World) (i : Nat) (lastlog : Time) (evs : List Event) (lastlog2 : Time)
    (hb : loopBody topic location nearby i lastlog (world i) = (evs, .next lastlog2)) :
    loopFrom topic location nearby world 1 i lastlog = (evs, .running (i + 1) lastlog2) := by
  rw [loopFrom, hb]
  simp [loopFrom]

/-! ## Claims on `loop` -/

/-- C3: the message is empty exactly when there is no bundle or the first
bundle has no occasion; a first bundle with an occasion gives a non-empty
message, whatever its fields hold, and an iteration whose check returns that
message posts it to the relay. -/
theorem formatResponse_empty_iff (r : res) :
    (formatResponse r = [] ↔
        r.Bundles = [] ∨ ∃ b rest, r.Bundles = b :: rest ∧ b.Occasions = [])
      ∧ (∀ b rest, r.Bundles = b :: rest → b.Occasions ≠ [] →
          0 < (formatResponse r).length
            ∧ ∀ (topic : GoString) (location : Int) (nearby : List Int) (i : Nat)
                (lastlog : Time) (w : World) (ssns : List GoString) (ssn : GoString)
                (evs : List Event),
                readSsns w.readFile = .ok ssns →
                ssns[w.random % ssns.length]? = some ssn →
                doCheck w ssn location nearby = (evs, .ok (formatResponse r)) →
                Event.httpPost (ascii "https://ntfy.sh/" ++ topic) (ascii "text/plain")
                    (formatResponse r)
                  ∈ (loopBody topic location nearby i lastlog w).1) := by
  obtain ⟨bs⟩ := r
  have hpos : ∀ b rest, b.Occasions ≠ [] → formatResponse ⟨b :: rest⟩ ≠ [] := by
    intro b rest hne
    rw [formatResponse_cons]
    cases hocc : b.Occasions with
    | nil => exact absurd hocc hne
    | cons o os => exact stringsJoin_cons_ne_nil _ _ _ (occasionLine_ne_nil o)
  constructor
  · cases bs with
    | nil => simp [formatResponse_nil]
    | cons b rest =>
      constructor
      · intro h
        refine Or.inr ⟨b, rest, rfl, ?_⟩
        by_contra hne
        exact hpos b rest hne h
      · rintro (h | ⟨b2, rest2, h1, h2⟩)
        · simp at h
        · simp only [List.cons.injEq] at h1
          obtain ⟨h3, _⟩ := h1
          subst h3
          rw [formatResponse_cons, h2]
          rfl
  · intro b rest hb hne
    simp only at hb
    subst hb
    have hlen : 0 < (formatResponse ⟨b :: rest⟩).length :=
      List.length_pos.2 (hpos b rest hne)
    refine ⟨hlen, ?_⟩
    intro topic location nearby i lastlog w ssns ssn evs hread hpick hcheck
    rw [loopBody_picked topic location nearby i lastlog w ssns ssn hread hpick, hcheck]
    simp [hlen]

/-- Witness of C3: an occasion whose three fields are empty gives the message
`  at `, and the iteration posts it. -/
theorem formatResponse_empty_iff_witness :
    0 < (formatResponse ⟨[⟨[⟨[], [], []⟩]⟩]⟩).length
      ∧ Event.httpPost (ascii "https://ntfy.sh/" ++ ascii "trafikcheck_129391")
          (ascii "text/plain") (formatResponse ⟨[⟨[⟨[], [], []⟩]⟩]⟩)
        ∈ (loopBody (ascii "trafikcheck_129391") 1000333 [1000302, 1000334] 0 zeroTime
            blankFieldsWorld).1 :=
  ⟨((formatResponse_empty_iff ⟨[⟨[⟨[], [], []⟩]⟩]⟩).2 ⟨[⟨[], [], []⟩]⟩ [] rfl (by decide)).1,
   ((formatResponse_empty_iff ⟨[⟨[⟨[], [], []⟩]⟩]⟩).2 ⟨[⟨[], [], []⟩]⟩ [] rfl (by decide)).2
      (ascii "trafikcheck_129391") 1000333 [1000302, 1000334] 0 zeroTime blankFieldsWorld
      [ascii "198001011234"] (ascii "198001011234")
      [Event.clientDo (scenarioRequest (ascii "query")),
       Event.stdout (ascii "HTTP: 200 OK\n "), Event.bodyClose]
      rfl rfl rfl⟩

/-- C6: when the loop reaches an iteration whose file cannot be read, or whose
file yields no identifier (an empty file, blank lines only), the loop returns
an error in that iteration and the only event of the iteration is the read of
the file: no random draw, no check request, no notification.  The loop never
panics, and every `rand.Intn(n)` it calls has n >= 1. -/
theorem loop_stops_without_ssns (topic : GoString) (location : Int) (nearby : List Int)
    (world : Nat → World) (k i : Nat) (lastlog : Time) (tr : List Event)
    (hrun : loop topic location nearby world k = (tr, .running i lastlog)) :
    (∀ e, (world i).readFile = .error e → ∀ fuel,
        loop topic location nearby world (k + (fuel + 1))
          = (tr ++ [Event.readFile (ascii "personnummer.txt")],
             .returned (.fmtErrorf (ascii "Failed to read personnumer: " ++ e.Error))))
      ∧ (∀ pns, (world i).readFile = .ok pns → parseSsns pns = [] → ∀ fuel,
          loop topic location nearby world (k + (fuel + 1))
            = (tr ++ [Event.readFile (ascii "personnummer.txt")],
               .returned (.errorsNew
                 (ascii "No personnnumer present. Please add at least one."))))
      ∧ parseSsns [] = []
      ∧ (∀ (lines : List GoString) (final : Bool), (∀ l ∈ lines, l = []) →
          parseSsns (stringsJoin lines lf ++ (if final then lf else [])) = []
            ∧ parseSsns (stringsJoin lines crlf ++ (if final then crlf else [])) = [])
      ∧ (∀ fuel, (loop topic location nearby world fuel).2 ≠ .panicked)
      ∧ (∀ fuel n, Event.randIntn n ∈ (loop topic location nearby world fuel).1 → 1 ≤ n) := by
  refine ⟨?_, ?_, ?_, ?_, ?_, ?_⟩
  · intro e he fuel
    rw [loop_step topic location nearby world k (fuel + 1) i lastlog tr hrun,
      loopFrom_ret topic location nearby world fuel i lastlog _ _
        (loopBody_read_error topic location nearby i lastlog (world i) e he)]
  · intro pns hp hempty fuel
    rw [loop_step topic location nearby world k (fuel + 1) i lastlog tr hrun,
      loopFrom_ret topic location nearby world fuel i lastlog _ _
        (loopBody_no_ssns topic location nearby i lastlog (world i) pns hp hempty)]
  · decide
  · intro lines final hl
    have hclean : ∀ l ∈ lines, CR ∉ l ∧ LF ∉ l := by
      intro l hmem
      rw [hl l hmem]
      simp
    have hfilter : lines.filter (fun l => decide (0 < l.length)) = [] := by
      rw [List.filter_eq_nil_iff]
      intro l hmem
      rw [hl l hmem]
      simp
    rw [parseSsns_join_lf lines hclean, parseSsns_join_crlf lines hclean, hfilter]
    exact ⟨rfl, rfl⟩
  · intro fuel
    exact loopFrom_ne_panicked topic location nearby world fuel 0 zeroTime
  · intro fuel n h
    exact loopFrom_randIntn topic location nearby world fuel 0 zeroTime n h

/-- Witness of C6: after one full iteration, a file of blank lines in the
second iteration, and a missing file in the second iteration. -/
theorem loop_stops_without_ssns_witness :
    (loop (ascii "trafikcheck_129391") 1000333 [1000302, 1000334]
            (fun i => if i = 1 then missingFileWorld else quietWorld) (1 + (0 + 1))
          = ((loop (ascii "trafikcheck_129391") 1000333 [1000302, 1000334]
                (fun i => if i = 1 then missingFileWorld else quietWorld) 1).1
              ++ [Event.readFile (ascii "personnummer.txt")],
             .returned (.fmtErrorf
               (ascii "Failed to read personnumer: " ++ ascii "no such file or directory"))))
      ∧ (loop (ascii "trafikcheck_129391") 1000333 [1000302, 1000334]
              (fun i => if i = 1 then blankFileWorld else quietWorld) (1 + (0 + 1))
            = ((loop (ascii "trafikcheck_129391") 1000333 [1000302, 1000334]
                  (fun i => if i = 1 then blankFileWorld else quietWorld) 1).1
                ++ [Event.readFile (ascii "personnummer.txt")],
               .returned (.errorsNew
                 (ascii "No personnnumer present. Please add at least one.")))) :=
  ⟨(loop_stops_without_ssns (ascii "trafikcheck_129391") 1000333 [1000302, 1000334]
      (fun i => if i = 1 then missingFileWorld else quietWorld) 1 1
      (1700000000 * Second) _ rfl).1 (.lib (ascii "no such file or directory")) rfl 0,
   (loop_stops_without_ssns (ascii "trafikcheck_129391") 1000333 [1000302, 1000334]
      (fun i => if i = 1 then blankFileWorld else quietWorld) 1 1
      (1700000000 * Second) _ rfl).2.1 (ascii "\r\n\n") rfl (by decide) 0⟩

/-- C7: when the loop reaches an iteration whose `doCheck` returns an error
`e`, the loop returns exactly `e` in that iteration; the trace ends with the
events of the failed check, which hold at most one request, no notification and
no sleep. -/
theorem loop_returns_check_error (topic : GoString) (location : Int) (nearby : List Int)
    (world : Nat → World) (k i : Nat) (lastlog : Time) (tr : List Event)
    (ssns : List GoString) (ssn : GoString) (evs : List Event) (e : GoError)
    (hrun : loop topic location nearby world k = (tr, .running i lastlog))
    (hread : readSsns (world i).readFile = .ok ssns)
    (hpick : ssns[(world i).random % ssns.length]? = some ssn)
    (hcheck : doCheck (world i) ssn location nearby = (evs, .error e)) :
    (∀ fuel,
        loop topic location nearby world (k + (fuel + 1))
          = (tr ++ [Event.readFile (ascii "personnummer.txt"), Event.randIntn ssns.length]
               ++ evs,
             .returned e))
      ∧ (evs = [] ∨ ∃ r, evs = [Event.clientDo r]
          ∨ ∃ out, evs = [Event.clientDo r, Event.stdout out, Event.bodyClose])
      ∧ (∀ ev ∈ evs, (∀ d, ev ≠ Event.sleep d) ∧ (∀ url ct body, ev ≠ Event.httpPost url ct body))
      := by
  have hev := doCheck_events (world i) ssn location nearby
  rw [hcheck] at hev
  simp only at hev
  refine ⟨?_, hev, ?_⟩
  · intro fuel
    have hb : loopBody topic location nearby i lastlog (world i)
        = ([Event.readFile (ascii "personnummer.txt"), Event.randIntn ssns.length] ++ evs,
           .ret e) := by
      rw [loopBody_picked topic location nearby i lastlog (world i) ssns ssn hread hpick, hcheck]
    rw [loop_step topic location nearby world k (fuel + 1) i lastlog tr hrun,
      loopFrom_ret topic location nearby world fuel i lastlog _ _ hb]
    simp
  · intro ev hmem
    rcases hev with h0 | ⟨r, h1 | ⟨out, h2⟩⟩
    · subst h0; simp at hmem
    · subst h1
      simp only [List.mem_singleton] at hmem
      subst hmem
      exact ⟨fun d => by simp, fun _ _ _ => by simp⟩
    · subst h2
      simp only [List.mem_cons, List.mem_singleton, List.not_mem_nil, or_false] at hmem
      rcases hmem with h | h | h <;> subst h <;> exact ⟨fun d => by simp, fun _ _ _ => by simp⟩

/-- Witness of C7: after one full iteration, the network fails in the second
iteration. -/
theorem loop_returns_check_error_witness :
    loop (ascii "trafikcheck_129391") 1000333 [1000302, 1000334]
          (fun i => if i = 1 then offlineWorld else quietWorld) (1 + (0 + 1))
        = ((loop (ascii "trafikcheck_129391") 1000333 [1000302, 1000334]
              (fun i => if i = 1 then offlineWorld else quietWorld) 1).1
             ++ [Event.readFile (ascii "personnummer.txt"), Event.randIntn 1]
             ++ [Event.clientDo (scenarioRequest (ascii "query"))],
           .returned (.lib (ascii "no route to host"))) :=
  (loop_returns_check_error (ascii "trafikcheck_129391") 1000333 [1000302, 1000334]
    (fun i => if i = 1 then offlineWorld else quietWorld) 1 1 (1700000000 * Second) _
    [ascii "198001011234"] (ascii "198001011234")
    [Event.clientDo (scenarioRequest (ascii "query"))] (.lib (ascii "no route to host"))
    rfl rfl rfl rfl).1 0

/-- C8: when the loop reaches an iteration whose check succeeds with the
message `msg`: if `msg` is not empty, the iteration makes, after the check, one
POST to `https://ntfy.sh/` followed by the topic, with content type
`text/plain` and body `msg`, then sleeps 10 minutes (whatever the POST
returns), prints at most one status line and sleeps 30 seconds before the next
iteration; if `msg` is empty, it makes no POST and only sleeps 30 seconds.  The
events of the check hold no POST to the relay and no sleep. -/
theorem loop_notifies_then_cools_down (topic : GoString) (location : Int)
    (nearby : List Int) (world : Nat → World) (k i : Nat) (lastlog : Time)
    (tr : List Event) (ssns : List GoString) (ssn : GoString) (evs : List Event)
    (msg : GoString)
    (hrun : loop topic location nearby world k = (tr, .running i lastlog))
    (hread : readSsns (world i).readFile = .ok ssns)
    (hpick : ssns[(world i).random % ssns.length]? = some ssn)
    (hcheck : doCheck (world i) ssn location nearby = (evs, .ok msg)) :
    ∃ (log : List Event) (lastlog2 : Time),
      (log = [] ∨ ∃ out, log = [Event.stdout out])
        ∧ (∀ ev ∈ evs,
            (∀ d, ev ≠ Event.sleep d) ∧ (∀ url ct body, ev ≠ Event.httpPost url ct body))
        ∧ (0 < msg.length →
            loop topic location nearby world (k + 1)
              = (tr ++ [Event.readFile (ascii "personnummer.txt"), Event.randIntn ssns.length]
                   ++ evs
                   ++ [Event.httpPost (ascii "https://ntfy.sh/" ++ topic) (ascii "text/plain") msg,
                       Event.sleep (10 * 60 * 1000000000)]
                   ++ log ++ [Event.sleep (30 * 1000000000)],
                 .running (i + 1) lastlog2))
        ∧ (msg.length = 0 →
            loop topic location nearby world (k + 1)
              = (tr ++ [Event.readFile (ascii "personnummer.txt"), Event.randIntn ssns.length]
                   ++ evs ++ log ++ [Event.sleep (30 * 1000000000)],
                 .running (i + 1) lastlog2)) := by
  have hev := doCheck_events (world i) ssn location nearby
  rw [hcheck] at hev
  simp only at hev
  have hb := loopBody_picked topic location nearby i lastlog (world i) ssns ssn hread hpick
  rw [hcheck] at hb
  simp only at hb
  refine ⟨if timeSub (world i).clockSince lastlog > Hour then
      [Event.stdout (fmtSprintf (ascii "Checked %d times, using %d personnummer\n")
        [.int (i + 1), .int ssns.length])] else [],
    if timeSub (world i).clockSince lastlog > Hour then (world i).clockNow else lastlog,
    ?_, ?_, ?_, ?_⟩
  · by_cases hlog : timeSub (world i).clockSince lastlog > Hour
    · exact Or.inr ⟨_, by rw [if_pos hlog]⟩
    · exact Or.inl (by rw [if_neg hlog])
  · intro ev hmem
    rcases hev with h0 | ⟨r, h1 | ⟨out, h2⟩⟩
    · subst h0; simp at hmem
    · subst h1
      simp only [List.mem_singleton] at hmem
      subst hmem
      exact ⟨fun d => by simp, fun _ _ _ => by simp⟩
    · subst h2
      simp only [List.mem_cons, List.mem_singleton, List.not_mem_nil, or_false] at hmem
      rcases hmem with h | h | h <;> subst h <;> exact ⟨fun d => by simp, fun _ _ _ => by simp⟩
  · intro hpos
    rw [if_pos hpos] at hb
    rw [loop_step topic location nearby world k 1 i lastlog tr hrun,
      loopFrom_next topic location nearby world i lastlog _ _ hb]
    simp
  · intro hzero
    have hnot : ¬ msg.length > 0 := by omega
    rw [if_neg hnot] at hb
    rw [loop_step topic location nearby world k 1 i lastlog tr hrun,
      loopFrom_next topic location nearby world i lastlog _ _ hb]
    simp

/-- Witness of C8: the end-to-end scenario in the second iteration of a run
whose first iteration found nothing; the relay is down and the cooldown sleep
follows all the same. -/
theorem loop_notifies_then_cools_down_witness :
    ∃ (log : List Event) (lastlog2 : Time),
      loop (ascii "trafikcheck_129391") 1000333 [1000302, 1000334]
          (fun i => if i = 1 then scenarioWorld else quietWorld) (1 + 1)
        = ((loop (ascii "trafikcheck_129391") 1000333 [1000302, 1000334]
              (fun i => if i = 1 then scenarioWorld else quietWorld) 1).1
             ++ [Event.readFile (ascii "personnummer.txt"), Event.randIntn 1]
             ++ [Event.clientDo (scenarioRequest (ascii "query")),
                 Event.stdout (ascii "HTTP: 200 OK\n "), Event.bodyClose]
             ++ [Event.httpPost (ascii "https://ntfy.sh/" ++ ascii "trafikcheck_129391")
                   (ascii "text/plain") (ascii "2024-05-01 10:00 at Site A"),
                 Event.sleep (10 * 60 * 1000000000)]
             ++ log ++ [Event.sleep (30 * 1000000000)],
           .running (1 + 1) lastlog2) :=
  match loop_notifies_then_cools_down (ascii "trafikcheck_129391") 1000333
      [1000302, 1000334] (fun i => if i = 1 then scenarioWorld else quietWorld) 1 1
      (1700000000 * Second) _ [ascii "198001011234"] (ascii "198001011234")
      [Event.clientDo (scenarioRequest (ascii "query")),
       Event.stdout (ascii "HTTP: 200 OK\n "), Event.bodyClose]
      (ascii "2024-05-01 10:00 at Site A") rfl rfl rfl rfl with
  | ⟨log, lastlog2, _, _, hpos, _⟩ => ⟨log, lastlog2, hpos (by decide)⟩

end Examcheck
